import Mathlib

/-!
# Verification of SetMyFit core logic

Shallow embedding of the outfit-recommendation core of the SetMyFit
wardrobe-management application, together with proofs of the specified
properties.  Sources embedded here:

* `src/lib/helpers/aiOutfitAnalyzer.ts` — score normalization
  (`normalizeStyleScore`), label normalization (`toTitleCase`,
  `normalizeCategoryLabel`, `normalizeMaterialLabel`), the image-analysis
  retry loop (`analyzeClothingImage`), and the recommendation pipeline
  (`generateAIOutfitRecommendation`) including its lock-enforcement step.
* `src/lib/rateLimiter.ts` — the sliding-window rate limiter
  (`checkRateLimit`).

JavaScript numbers are modelled as `ℚ` (all values arising here are exact
in ℚ), timestamps as `ℤ` milliseconds, and JS `Math.round` (round half
toward +∞) as `⌊q + 1/2⌋`.  External platform primitives that the code
calls (`JSON.parse`, `Array.prototype` methods, `Set`) are modelled by
Lean functions with the corresponding ECMAScript semantics.
-/

namespace SetMyFit

/-! ## JS `Math.round` : round half toward +∞ -/

/-- ECMAScript `Math.round`: `Math.round x = ⌊x + 1/2⌋` (half-way cases
round toward +∞, e.g. `Math.round (-0.5) = 0`). -/
def jsRound (q : ℚ) : ℤ := ⌊q + 1/2⌋

/-! ## `normalizeStyleScore` (aiOutfitAnalyzer.ts, lines 10–25)

```js
function normalizeStyleScore(score: number | undefined): number {
  if (score === undefined || score === null) return 50;
  if (score > 0 && score <= 1) return Math.round(score * 100);
  if (score >= 1 && score <= 10) return Math.round(score * 10);
  return Math.max(0, Math.min(100, Math.round(score)));
}
```
`undefined`/`null` inputs are both modelled by `none`. -/

def normalizeStyleScore : Option ℚ → ℤ
  | none => 50
  | some score =>
    if 0 < score ∧ score ≤ 1 then jsRound (score * 100)
    else if 1 ≤ score ∧ score ≤ 10 then jsRound (score * 10)
    else max 0 (min 100 (jsRound score))

/-! ### Basic facts about `jsRound` -/

theorem jsRound_nonneg {q : ℚ} (h : 0 ≤ q) : 0 ≤ jsRound q := by
  unfold jsRound
  rw [Int.le_floor]
  push_cast
  linarith

theorem jsRound_le {q : ℚ} (n : ℤ) (h : q ≤ n) : jsRound q ≤ n := by
  unfold jsRound
  have : ⌊q + 1/2⌋ < n + 1 := by
    rw [Int.floor_lt]
    push_cast
    linarith
  omega

theorem jsRound_intCast (n : ℤ) : jsRound (n : ℚ) = n := by
  unfold jsRound
  have h1 : (n : ℤ) ≤ ⌊(n : ℚ) + 1/2⌋ := by
    rw [Int.le_floor]
    linarith
  have h2 : ⌊(n : ℚ) + 1/2⌋ < n + 1 := by
    rw [Int.floor_lt]
    push_cast
    linarith
  omega

/-! ### Theorems about `normalizeStyleScore` -/

/-- C2.  `normalizeStyleScore` equals the piecewise reference function:
`none` (JS `undefined`/`null`) yields 50; a score in `(0, 1]` is resolved
by the fraction branch as `round (s * 100)` (so `s = 1` yields 100); a
score in `(1, 10]` is resolved as `round (s * 10)`. -/
theorem normalizeStyleScore_piecewise (s : ℚ) :
    normalizeStyleScore none = 50 ∧
    (0 < s → s ≤ 1 → normalizeStyleScore (some s) = jsRound (s * 100)) ∧
    (1 < s → s ≤ 10 → normalizeStyleScore (some s) = jsRound (s * 10)) ∧
    normalizeStyleScore (some 1) = 100 := by
  refine ⟨rfl, ?_, ?_, ?_⟩
  · intro h0 h1
    simp [normalizeStyleScore, h0, h1]
  · intro h1 h10
    have hnot : ¬ (0 < s ∧ s ≤ 1) := by
      rintro ⟨-, h⟩
      linarith
    have hin : 1 ≤ s ∧ s ≤ 10 := ⟨le_of_lt h1, h10⟩
    rw [normalizeStyleScore, if_neg hnot, if_pos hin]
  · have h1 : (0:ℚ) < 1 ∧ (1:ℚ) ≤ 1 := by norm_num
    rw [normalizeStyleScore, if_pos h1]
    have : ((1:ℚ) * 100) = ((100 : ℤ) : ℚ) := by norm_num
    rw [this, jsRound_intCast]

/-- Witness for C2: the fraction branch at the spec's scenario value
`styleScore = 0.92`, which normalizes to `92`. -/
theorem normalizeStyleScore_piecewise_witness :
    (0:ℚ) < 92/100 ∧ (92/100:ℚ) ≤ 1 ∧ normalizeStyleScore (some (92/100)) = 92 := by
  refine ⟨by norm_num, by norm_num, ?_⟩
  have h := (normalizeStyleScore_piecewise (92/100)).2.1 (by norm_num) (by norm_num)
  rw [h, jsRound]
  norm_num

/-- C5.  `normalizeStyleScore` always returns an integer (codomain `ℤ`)
in `[0, 100]`, and on inputs with `s ≤ 0` or `s > 10` it returns
`clamp (round s) 0 100 = max 0 (min 100 (round s))`. -/
theorem normalizeStyleScore_clamped (x : Option ℚ) (s : ℚ) (hs : s ≤ 0 ∨ 10 < s) :
    (0 ≤ normalizeStyleScore x ∧ normalizeStyleScore x ≤ 100) ∧
    normalizeStyleScore (some s) = max 0 (min 100 (jsRound s)) := by
  constructor
  · match x with
    | none => exact ⟨by norm_num [normalizeStyleScore], by norm_num [normalizeStyleScore]⟩
    | some q =>
      rw [normalizeStyleScore]
      split
      · rename_i h
        exact ⟨jsRound_nonneg (by nlinarith [h.1]),
               jsRound_le 100 (by push_cast; nlinarith [h.2])⟩
      · split
        · rename_i h
          exact ⟨jsRound_nonneg (by nlinarith [h.1]),
                 jsRound_le 100 (by push_cast; nlinarith [h.2])⟩
        · refine ⟨le_max_left _ _, max_le (by norm_num) (min_le_left _ _)⟩
  · have h1 : ¬ (0 < s ∧ s ≤ 1) := by
      rcases hs with h | h
      · rintro ⟨h0, -⟩
        linarith
      · rintro ⟨-, h1⟩
        linarith
    have h2 : ¬ (1 ≤ s ∧ s ≤ 10) := by
      rcases hs with h | h
      · rintro ⟨h0, -⟩
        linarith
      · rintro ⟨-, h1⟩
        linarith
    rw [normalizeStyleScore, if_neg h1, if_neg h2]

/-- Witness for C5: the spec's scenario value `styleScore = 105`, which
clamps to `100`. -/
theorem normalizeStyleScore_clamped_witness :
    ((105:ℚ) ≤ 0 ∨ (10:ℚ) < 105) ∧ normalizeStyleScore (some 105) = 100 := by
  refine ⟨Or.inr (by norm_num), ?_⟩
  have h := (normalizeStyleScore_clamped (some 105) 105 (Or.inr (by norm_num))).2
  rw [h, jsRound]
  norm_num

/-! ## Sliding-window rate limiter (rateLimiter.ts, lines 24–60)

```js
export function checkRateLimit(key, config) {
    const now = Date.now();
    let state = rateLimiters.get(key);
    if (!state) { state = { requests: [] }; rateLimiters.set(key, state); }
    const windowStart = now - config.windowMs;
    state.requests = state.requests.filter(timestamp => timestamp > windowStart);
    if (state.requests.length >= config.maxRequests) {
        const oldestRequest = state.requests[0];
        const waitMs = oldestRequest + config.windowMs - now;
        return { allowed: false, waitMs: Math.max(0, waitMs), remaining: 0 };
    }
    state.requests.push(now);
    return { allowed: true, waitMs: 0,
             remaining: config.maxRequests - state.requests.length };
}
```

The per-key `Map` entry is modelled by passing that key's `requests`
array explicitly; `Date.now()` is the explicit `now` argument.
`state.requests[0]` on an empty array is JS `undefined` (giving a `NaN`
wait); that branch is unreachable whenever `maxRequests ≥ 1`, and is
modelled with a default of `0`. -/

structure RateLimiterConfig where
  maxRequests : Nat
  windowMs : Int

structure RateLimitResult where
  allowed : Bool
  waitMs : Int
  remaining : Nat

def checkRateLimit (now : Int) (config : RateLimiterConfig) (requests : List Int) :
    RateLimitResult × List Int :=
  let windowStart := now - config.windowMs
  let reqs := requests.filter (fun timestamp => windowStart < timestamp)
  if config.maxRequests ≤ reqs.length then
    let oldestRequest := reqs.head?.getD 0
    ({ allowed := false, waitMs := max 0 (oldestRequest + config.windowMs - now),
       remaining := 0 }, reqs)
  else
    ({ allowed := true, waitMs := 0,
       remaining := config.maxRequests - (reqs.length + 1) }, reqs ++ [now])

/-- A sequence of calls to `checkRateLimit` for one key, at the given
call times, threading the stored `requests` array; returns the final
array and the list of per-call results. -/
def runCalls (config : RateLimiterConfig) : List Int → List Int → List Int × List RateLimitResult
  | requests, [] => (requests, [])
  | requests, t :: ts =>
    let step := checkRateLimit t config requests
    let rest := runCalls config step.2 ts
    (rest.1, step.1 :: rest.2)

theorem filter_eq_self_of_forall {α : Type _} (p : α → Bool) :
    ∀ l : List α, (∀ x ∈ l, p x = true) → l.filter p = l := by
  intro l h
  induction l with
  | nil => rfl
  | cons a l ih =>
    have ha : p a = true := h a (List.mem_cons_self a l)
    simp only [List.filter, ha]
    rw [ih fun x hx => h x (List.mem_cons_of_mem a hx)]

/-- While fewer than `maxRequests` pairwise-in-window calls have been
recorded, every further in-window call is allowed and appended. -/
theorem runCalls_all_allowed (config : RateLimiterConfig) :
    ∀ (todo done : List Int),
      (done ++ todo).length ≤ config.maxRequests →
      (∀ x ∈ done ++ todo, ∀ y ∈ done ++ todo, x - y < config.windowMs) →
      (runCalls config done todo).1 = done ++ todo ∧
      ∀ r ∈ (runCalls config done todo).2, r.allowed = true := by
  intro todo
  induction todo with
  | nil =>
    intro done _ _
    simp [runCalls]
  | cons t ts ih =>
    intro done hlen hwin
    have hkeep : ∀ x ∈ done, (decide (t - config.windowMs < x)) = true := by
      intro x hx
      have := hwin t (by simp) x (by simp [hx])
      simpa using by omega
    have hfilter : done.filter (fun timestamp => decide (t - config.windowMs < timestamp)) = done :=
      filter_eq_self_of_forall _ done hkeep
    have hlt : ¬ config.maxRequests ≤ done.length := by
      have := hlen
      simp [List.length_append] at this
      omega
    have hstep : checkRateLimit t config done =
        ({ allowed := true, waitMs := 0,
           remaining := config.maxRequests - (done.length + 1) }, done ++ [t]) := by
      simp only [checkRateLimit, hfilter, if_neg hlt]
    have hlen' : ((done ++ [t]) ++ ts).length ≤ config.maxRequests := by
      simpa [List.length_append] using hlen
    have hwin' : ∀ x ∈ (done ++ [t]) ++ ts, ∀ y ∈ (done ++ [t]) ++ ts,
        x - y < config.windowMs := by
      intro x hx y hy
      apply hwin <;> simp only [List.append_assoc, List.singleton_append] at hx hy ⊢ <;>
        assumption
    have := ih (done ++ [t]) hlen' hwin'
    refine ⟨?_, ?_⟩
    · show (runCalls config done (t :: ts)).1 = done ++ t :: ts
      simp only [runCalls, hstep]
      rw [this.1]
      simp
    · intro r hr
      simp only [runCalls, hstep, List.mem_cons] at hr
      rcases hr with rfl | hr
      · rfl
      · exact this.2 r hr

/-- C4.  The sliding-window contract of `checkRateLimit`, for any
configuration: starting from an empty state, `maxRequests` calls whose
timestamps all lie within one `windowMs` span are all allowed; a further
call `u` within the same window is rejected with strictly positive
`waitMs`; and a call `v` made once `windowMs` has fully elapsed since the
oldest recorded call is allowed again. -/
theorem checkRateLimit_sliding_window
    (config : RateLimiterConfig) (ts : List Int) (u v : Int)
    (hne : ts ≠ [])
    (hlen : ts.length = config.maxRequests)
    (hwin : ∀ x ∈ ts, ∀ y ∈ ts, x - y < config.windowMs)
    (hu : ∀ x ∈ ts, u - x < config.windowMs)
    (hv : ts.head hne + config.windowMs ≤ v) :
    (∀ r ∈ (runCalls config [] ts).2, r.allowed = true) ∧
    (checkRateLimit u config (runCalls config [] ts).1).1.allowed = false ∧
    0 < (checkRateLimit u config (runCalls config [] ts).1).1.waitMs ∧
    (checkRateLimit v config (checkRateLimit u config (runCalls config [] ts).1).2).1.allowed
      = true := by
  have hrun := runCalls_all_allowed config ts []
    (by simpa using le_of_eq hlen) (by simpa using hwin)
  have hstate : (runCalls config [] ts).1 = ts := by simpa using hrun.1
  -- the filter at time `u` keeps every recorded timestamp
  have hufilter : ts.filter (fun timestamp => decide (u - config.windowMs < timestamp)) = ts := by
    apply filter_eq_self_of_forall
    intro x hx
    have := hu x hx
    simpa using by omega
  obtain ⟨t0, rest, rfl⟩ : ∃ t0 rest, ts = t0 :: rest := by
    cases ts with
    | nil => exact absurd rfl hne
    | cons a l => exact ⟨a, l, rfl⟩
  have hfull : config.maxRequests ≤ (t0 :: rest).length := le_of_eq hlen.symm
  have hblocked : checkRateLimit u config (t0 :: rest) =
      ({ allowed := false,
         waitMs := max 0 (t0 + config.windowMs - u), remaining := 0 }, t0 :: rest) := by
    simp only [checkRateLimit, hufilter, if_pos hfull, List.head?, Option.getD_some]
  have hwait : 0 < t0 + config.windowMs - u := by
    have := hu t0 (by simp)
    omega
  refine ⟨hrun.2, ?_, ?_, ?_⟩
  · rw [hstate, hblocked]
  · rw [hstate, hblocked]
    simp only
    omega
  · rw [hstate, hblocked]
    -- at time `v` the oldest timestamp `t0` has left the window
    have ht0 : (decide (v - config.windowMs < t0)) = false := by
      simp only [List.head] at hv
      simpa using by omega
    have hlenle : ((t0 :: rest).filter
        (fun timestamp => decide (v - config.windowMs < timestamp))).length ≤ rest.length := by
      simp only [List.filter, ht0]
      exact List.length_filter_le _ rest
    have hnotfull : ¬ config.maxRequests ≤ ((t0 :: rest).filter
        (fun timestamp => decide (v - config.windowMs < timestamp))).length := by
      have : rest.length + 1 = config.maxRequests := by simpa using hlen
      omega
    simp only [checkRateLimit, if_neg hnotfull]

/-- Witness for C4: two calls at times 0 and 10 with
`maxRequests = 2, windowMs = 100`; a third call at time 20 is blocked
with positive wait, and a call at time 100 is allowed again. -/
theorem checkRateLimit_sliding_window_witness :
    ([0, 10] ≠ ([] : List Int)) ∧
    ([0, 10] : List Int).length = 2 ∧
    (∀ r ∈ (runCalls ⟨2, 100⟩ [] [0, 10]).2, r.allowed = true) ∧
    (checkRateLimit 20 ⟨2, 100⟩ (runCalls ⟨2, 100⟩ [] [0, 10]).1).1.allowed = false ∧
    0 < (checkRateLimit 20 ⟨2, 100⟩ (runCalls ⟨2, 100⟩ [] [0, 10]).1).1.waitMs ∧
    (checkRateLimit 100 ⟨2, 100⟩
      (checkRateLimit 20 ⟨2, 100⟩ (runCalls ⟨2, 100⟩ [] [0, 10]).1).2).1.allowed = true := by
  have h := checkRateLimit_sliding_window ⟨2, 100⟩ [0, 10] 20 100
    (by decide) (by decide) (by decide) (by decide) (by decide)
  exact ⟨by decide, by decide, h.1, h.2.1, h.2.2.1, h.2.2.2⟩

/-! ## `analyzeClothingImage` retry loop (aiOutfitAnalyzer.ts, lines 79–221)

```js
const AI_ANALYSIS_MAX_RETRIES = 2;
const AI_ANALYSIS_TIMEOUT_MS = 30000; // 30 seconds
const AI_ANALYSIS_INITIAL_DELAY_MS = 1000;

export async function analyzeClothingImage(base64ImageData, mimeType) {
  let lastError = null;
  for (let attempt = 0; attempt <= AI_ANALYSIS_MAX_RETRIES; attempt++) {
    if (attempt > 0) {
      const delay = AI_ANALYSIS_INITIAL_DELAY_MS * Math.pow(2, attempt - 1);
      await new Promise(resolve => setTimeout(resolve, delay));
    }
    try {
      ... // fetch with AbortController aborting after AI_ANALYSIS_TIMEOUT_MS
      return { ... };
    } catch (error) {
      lastError = error instanceof Error ? error : new Error(String(error));
      if (lastError.name === 'AbortError') {
        lastError = new Error('AI analysis timed out after 30 seconds');
        break;
      }
    }
  }
  throw lastError || new Error('AI analysis failed after retries');
}
```

Each iteration performs one network attempt whose outcome is external;
the embedding abstracts attempt `k`'s outcome as `outcomes k`:
`success` (the `return`), `timeout` (the catch with `AbortError`, raised
by the 30-second abort signal), or `failure` (any other caught error,
carrying its message).  `AnalysisRun` records the surfaced result
(`Except` models return/throw), how many attempts ran, and the backoff
delays slept in order.  The loop is embedded with explicit fuel
`AI_ANALYSIS_MAX_RETRIES + 1 - attempt`, so the loop guard
`attempt <= AI_ANALYSIS_MAX_RETRIES` is `fuel > 0`. -/

def AI_ANALYSIS_MAX_RETRIES : Nat := 2

def AI_ANALYSIS_TIMEOUT_MS : Nat := 30000

def AI_ANALYSIS_INITIAL_DELAY_MS : Nat := 1000

inductive AttemptOutcome (α : Type _)
  | success (value : α)
  | failure (message : String)
  | timeout

def analyzeLoop {α : Type _} (outcomes : Nat → AttemptOutcome α) :
    Nat → Nat → Option String → List Nat →
    Except String α × Nat × List Nat
  | 0, attempt, lastError, delays =>
      (.error (lastError.getD "AI analysis failed after retries"), attempt, delays)
  | fuel + 1, attempt, _lastError, delays =>
    let delays' := if 0 < attempt
      then delays ++ [AI_ANALYSIS_INITIAL_DELAY_MS * 2 ^ (attempt - 1)]
      else delays
    match outcomes attempt with
    | .success value => (.ok value, attempt + 1, delays')
    | .timeout => (.error "AI analysis timed out after 30 seconds", attempt + 1, delays')
    | .failure message => analyzeLoop outcomes fuel (attempt + 1) (some message) delays'

/-- The retry loop of `analyzeClothingImage`, given the outcome of each
attempt; returns `(surfaced result, number of attempts run, backoff
delays slept)`. -/
def analyzeClothingImage {α : Type _} (outcomes : Nat → AttemptOutcome α) :
    Except String α × Nat × List Nat :=
  analyzeLoop outcomes (AI_ANALYSIS_MAX_RETRIES + 1) 0 none []

/-- C6.  `analyzeClothingImage` makes at most 3 attempts, sleeping 1000 ms
before the second and 2000 ms before the third; a timeout ends the loop
immediately with the timeout error (a first-attempt timeout gives attempt
count 1); every non-timeout failure is retried; and when all attempts
fail the last error is surfaced.  The abort limit is the fixed 30 s. -/
theorem analyzeClothingImage_retry_policy {α : Type _} (o : Nat → AttemptOutcome α) :
    AI_ANALYSIS_TIMEOUT_MS = 30000 ∧
    (analyzeClothingImage o).2.1 ≤ 3 ∧
    (analyzeClothingImage o).2.2 = List.take ((analyzeClothingImage o).2.1 - 1) [1000, 2000] ∧
    (o 0 = .timeout →
      (analyzeClothingImage o).2.1 = 1 ∧
      (analyzeClothingImage o).1 = .error "AI analysis timed out after 30 seconds") ∧
    (∀ m0, o 0 = .failure m0 → o 1 = .timeout →
      (analyzeClothingImage o).2.1 = 2 ∧
      (analyzeClothingImage o).1 = .error "AI analysis timed out after 30 seconds") ∧
    (∀ m0 m1, o 0 = .failure m0 → o 1 = .failure m1 → o 2 = .timeout →
      (analyzeClothingImage o).2.1 = 3 ∧
      (analyzeClothingImage o).1 = .error "AI analysis timed out after 30 seconds") ∧
    (∀ m0 v, o 0 = .failure m0 → o 1 = .success v →
      (analyzeClothingImage o).2.1 = 2 ∧ (analyzeClothingImage o).1 = .ok v) ∧
    (∀ m0 m1 m2, o 0 = .failure m0 → o 1 = .failure m1 → o 2 = .failure m2 →
      (analyzeClothingImage o).2.1 = 3 ∧ (analyzeClothingImage o).1 = .error m2) := by
  refine ⟨rfl, ?_, ?_, ?_, ?_, ?_, ?_, ?_⟩
  · rcases h0 : o 0 <;> rcases h1 : o 1 <;> rcases h2 : o 2 <;>
      simp [analyzeClothingImage, analyzeLoop, AI_ANALYSIS_MAX_RETRIES,
            AI_ANALYSIS_INITIAL_DELAY_MS, h0, h1, h2]
  · rcases h0 : o 0 <;> rcases h1 : o 1 <;> rcases h2 : o 2 <;>
      simp [analyzeClothingImage, analyzeLoop, AI_ANALYSIS_MAX_RETRIES,
            AI_ANALYSIS_INITIAL_DELAY_MS, h0, h1, h2]
  · intro ht
    simp [analyzeClothingImage, analyzeLoop, AI_ANALYSIS_MAX_RETRIES,
          AI_ANALYSIS_INITIAL_DELAY_MS, ht]
  · intro m0 h0 h1
    simp [analyzeClothingImage, analyzeLoop, AI_ANALYSIS_MAX_RETRIES,
          AI_ANALYSIS_INITIAL_DELAY_MS, h0, h1]
  · intro m0 m1 h0 h1 h2
    simp [analyzeClothingImage, analyzeLoop, AI_ANALYSIS_MAX_RETRIES,
          AI_ANALYSIS_INITIAL_DELAY_MS, h0, h1, h2]
  · intro m0 v h0 h1
    simp [analyzeClothingImage, analyzeLoop, AI_ANALYSIS_MAX_RETRIES,
          AI_ANALYSIS_INITIAL_DELAY_MS, h0, h1]
  · intro m0 m1 m2 h0 h1 h2
    simp [analyzeClothingImage, analyzeLoop, AI_ANALYSIS_MAX_RETRIES,
          AI_ANALYSIS_INITIAL_DELAY_MS, h0, h1, h2]

/-- Witness for C6: a run whose first attempt fails with a network error
and whose second attempt times out — two attempts, one 1000 ms backoff,
the timeout error surfaced. -/
theorem analyzeClothingImage_retry_policy_witness :
    (fun k => if k = 0 then AttemptOutcome.failure (α := Unit) "network error"
              else AttemptOutcome.timeout) 0 = .failure "network error" ∧
    (fun k => if k = 0 then AttemptOutcome.failure (α := Unit) "network error"
              else AttemptOutcome.timeout) 1 = .timeout ∧
    (analyzeClothingImage (fun k =>
        if k = 0 then AttemptOutcome.failure (α := Unit) "network error"
        else AttemptOutcome.timeout)).2.1 = 2 ∧
    (analyzeClothingImage (fun k =>
        if k = 0 then AttemptOutcome.failure (α := Unit) "network error"
        else AttemptOutcome.timeout)).1 =
      .error "AI analysis timed out after 30 seconds" := by
  refine ⟨rfl, rfl, ?_⟩
  have h := (analyzeClothingImage_retry_policy (fun k =>
      if k = 0 then AttemptOutcome.failure (α := Unit) "network error"
      else AttemptOutcome.timeout)).2.2.2.2.1 "network error" rfl rfl
  exact h

/-! ## JSON values

`JSON.parse` produces JavaScript values; the subset expressible in JSON
is modelled by `Json`.  Numbers are `ℚ` (every JSON numeral denotes a
rational; the doubles arising in this code are exact). -/

inductive Json where
  | null
  | bool (b : Bool)
  | num (value : ℚ)
  | str (s : String)
  | arr (elements : List Json)
  | obj (fields : List (String × Json))

/-- JS `array.includes(s)` for a string argument `s`: `===` on two
strings is value equality, and a non-string element is never `===` a
string. -/
def jsIncludes (xs : List Json) (s : String) : Bool :=
  xs.any fun x =>
    match x with
    | .str t => t == s
    | _ => false

/-! ## Wardrobe items and the lock-enforcement step
(aiOutfitAnalyzer.ts, lines 370–404)

```js
const selectedItems = wardrobeItems.filter(item =>
  aiResponse.selectedItemIds.includes(String(item.id))
);
if (lockedItems && lockedItems.length > 0) {
  const lockedIdsSet = new Set(lockedItems);
  const missingLockedIds = lockedItems.filter(id =>
    !selectedItems.some(item => String(item.id) === id));
  if (missingLockedIds.length > 0) {
    for (const id of missingLockedIds) {
      const itemToAdd = wardrobeItems.find(i => String(i.id) === id);
      if (itemToAdd) {
        const conflictIndex = selectedItems.findIndex(i =>
          i.type === itemToAdd.type && !lockedIdsSet.has(String(i.id)));
        if (conflictIndex !== -1) selectedItems.splice(conflictIndex, 1);
        selectedItems.push(itemToAdd);
      }
    }
  }
}
```

`IClothingItem` is embedded with the fields this logic reads (`id`,
`type`); the id type `ι` is abstract and `strId` models the JS
`String(·)` conversion applied before every comparison.  `Set.has` on
the set built from `lockedItems` is list membership, `splice(k, 1)` is
`eraseIdx k`, `push` is append. -/

structure ClothingItem (ι : Type _) where
  id : ι
  type : String
deriving DecidableEq

/-- One iteration of the `for (const id of missingLockedIds)` loop. -/
def enforceLockedId {ι : Type _} (strId : ι → String)
    (wardrobeItems : List (ClothingItem ι)) (lockedItems : List String)
    (selectedItems : List (ClothingItem ι)) (id : String) :
    List (ClothingItem ι) :=
  match wardrobeItems.find? (fun i => strId i.id == id) with
  | none => selectedItems
  | some itemToAdd =>
    match selectedItems.findIdx? (fun i =>
        i.type == itemToAdd.type && !(lockedItems.contains (strId i.id))) with
    | some conflictIndex => selectedItems.eraseIdx conflictIndex ++ [itemToAdd]
    | none => selectedItems ++ [itemToAdd]

/-- The whole locking-mechanism-enforcement block. -/
def enforceLocks {ι : Type _} (strId : ι → String)
    (wardrobeItems : List (ClothingItem ι)) (lockedItems : List String)
    (selectedItems : List (ClothingItem ι)) : List (ClothingItem ι) :=
  if lockedItems.isEmpty then selectedItems
  else
    let missingLockedIds := lockedItems.filter
      (fun id => !(selectedItems.any (fun item => strId item.id == id)))
    if missingLockedIds.isEmpty then selectedItems
    else missingLockedIds.foldl (enforceLockedId strId wardrobeItems lockedItems)
      selectedItems

/-- The model-selection step feeding lock enforcement. -/
def selectByIds {ι : Type _} (strId : ι → String)
    (wardrobeItems : List (ClothingItem ι)) (selectedItemIds : List Json) :
    List (ClothingItem ι) :=
  wardrobeItems.filter (fun item => jsIncludes selectedItemIds (strId item.id))

/-! ### List helper lemmas -/

theorem mem_eraseIdx_of_get_ne {α : Type _} (a : α) :
    ∀ (l : List α) (k : Nat), a ∈ l →
      (∀ hk : k < l.length, l.get ⟨k, hk⟩ ≠ a) → a ∈ l.eraseIdx k := by
  intro l
  induction l with
  | nil => intro k h _; exact absurd h (List.not_mem_nil a)
  | cons x t ih =>
    intro k hmem hne
    match k with
    | 0 =>
      have hx : x ≠ a := hne (by simp)
      rcases List.mem_cons.mp hmem with rfl | ht
      · exact absurd rfl hx
      · simpa [List.eraseIdx] using ht
    | k + 1 =>
      rcases List.mem_cons.mp hmem with rfl | ht
      · simp [List.eraseIdx]
      · have : a ∈ t.eraseIdx k := by
          apply ih k ht
          intro hk
          exact hne (by simpa using Nat.succ_lt_succ hk)
        simp [List.eraseIdx, this]

theorem findIdx?_spec {α : Type _} :
    ∀ (l : List α) (p : α → Bool) (i k : Nat), l.findIdx? p i = some k →
      i ≤ k ∧ ∃ hk : k - i < l.length, p (l.get ⟨k - i, hk⟩) = true := by
  intro l
  induction l with
  | nil => intro p i k h; simp [List.findIdx?_nil] at h
  | cons x t ih =>
    intro p i k h
    rw [List.findIdx?_cons] at h
    by_cases hp : p x = true
    · rw [if_pos hp] at h
      obtain rfl : i = k := by simpa using h
      exact ⟨le_refl _, by simpa using hp⟩
    · rw [if_neg hp] at h
      obtain ⟨hik, hk, hpk⟩ := ih p (i + 1) k h
      refine ⟨by omega, ?_⟩
      have hki : k - i = (k - (i + 1)) + 1 := by omega
      refine ⟨by simp; omega, ?_⟩
      have : (x :: t).get ⟨k - i, by simp; omega⟩ = t.get ⟨k - (i + 1), hk⟩ := by
        simp [hki]
      rw [this]
      exact hpk

theorem findIdx?_first {α : Type _} :
    ∀ (l : List α) (p : α → Bool) (i k : Nat) (hk : k < l.length),
      p (l.get ⟨k, hk⟩) = true →
      (∀ j (hj : j < k), p (l.get ⟨j, by omega⟩) = false) →
      l.findIdx? p i = some (i + k) := by
  intro l
  induction l with
  | nil => intro p i k hk; simp at hk
  | cons x t ih =>
    intro p i k hk hpk hbefore
    rw [List.findIdx?_cons]
    match k with
    | 0 =>
      simp only [List.get] at hpk
      rw [if_pos hpk]
      simp
    | k + 1 =>
      have hx : p x = false := hbefore 0 (Nat.succ_pos k)
      rw [if_neg (by simp [hx])]
      have := ih p (i + 1) k (by simpa using Nat.lt_of_succ_lt_succ hk)
        (by simpa using hpk)
        (fun j hj => by simpa using hbefore (j + 1) (Nat.succ_lt_succ hj))
      rw [this]
      congr 1
      omega

theorem findIdx?_eq_none_of_all {α : Type _} :
    ∀ (l : List α) (p : α → Bool) (i : Nat),
      (∀ x ∈ l, p x = false) → l.findIdx? p i = none := by
  intro l
  induction l with
  | nil => intro p i _; simp [List.findIdx?_nil]
  | cons x t ih =>
    intro p i h
    rw [List.findIdx?_cons, if_neg (by simp [h x (List.mem_cons_self x t)])]
    exact ih p (i + 1) fun y hy => h y (List.mem_cons_of_mem x hy)

/-! ### Lock-enforcement lemmas -/

/-- An already-selected item whose (stringified) id is locked is never
removed by one enforcement iteration: the conflict search explicitly
skips items in the locked set. -/
theorem enforceLockedId_mem_of_locked {ι : Type _} (strId : ι → String)
    (wardrobeItems : List (ClothingItem ι)) (lockedItems : List String)
    (selectedItems : List (ClothingItem ι)) (id : String) (x : ClothingItem ι)
    (hx : x ∈ selectedItems) (hxl : strId x.id ∈ lockedItems) :
    x ∈ enforceLockedId strId wardrobeItems lockedItems selectedItems id := by
  rcases hfind : wardrobeItems.find? (fun i => strId i.id == id) with _ | itemToAdd
  · unfold enforceLockedId
    rw [hfind]
    exact hx
  · rcases hidx : selectedItems.findIdx? (fun i =>
        i.type == itemToAdd.type && !(lockedItems.contains (strId i.id))) with _ | conflictIndex
    · have : enforceLockedId strId wardrobeItems lockedItems selectedItems id
          = selectedItems ++ [itemToAdd] := by
        unfold enforceLockedId
        simp only [hfind, hidx]
      rw [this]
      exact List.mem_append_left _ hx
    · have : enforceLockedId strId wardrobeItems lockedItems selectedItems id
          = selectedItems.eraseIdx conflictIndex ++ [itemToAdd] := by
        unfold enforceLockedId
        simp only [hfind, hidx]
      rw [this]
      apply List.mem_append_left
      obtain ⟨-, hk, hpk⟩ := findIdx?_spec selectedItems _ 0 conflictIndex hidx
      apply mem_eraseIdx_of_get_ne x selectedItems conflictIndex hx
      intro hklen heq
      have hfin : (⟨conflictIndex - 0, hk⟩ : Fin selectedItems.length)
          = ⟨conflictIndex, hklen⟩ := Fin.ext (Nat.sub_zero conflictIndex)
      rw [hfin, heq] at hpk
      simp at hpk
      exact hpk.2 hxl

/-- Locked already-selected items survive the whole enforcement loop. -/
theorem foldl_enforceLockedId_mem_of_locked {ι : Type _} (strId : ι → String)
    (wardrobeItems : List (ClothingItem ι)) (lockedItems : List String) :
    ∀ (ids : List String) (selectedItems : List (ClothingItem ι)) (x : ClothingItem ι),
      x ∈ selectedItems → strId x.id ∈ lockedItems →
      x ∈ ids.foldl (enforceLockedId strId wardrobeItems lockedItems) selectedItems := by
  intro ids
  induction ids with
  | nil => intro sel x hx _; exact hx
  | cons id rest ih =>
    intro sel x hx hxl
    exact ih _ x (enforceLockedId_mem_of_locked strId wardrobeItems lockedItems sel
      id x hx hxl) hxl

/-- Processing a locked id that does match a wardrobe item puts that item
into the selection. -/
theorem enforceLockedId_adds {ι : Type _} (strId : ι → String)
    (wardrobeItems : List (ClothingItem ι)) (lockedItems : List String)
    (selectedItems : List (ClothingItem ι)) (id : String)
    (hfound : ∃ w ∈ wardrobeItems, strId w.id = id) :
    ∃ x ∈ enforceLockedId strId wardrobeItems lockedItems selectedItems id,
      strId x.id = id := by
  obtain ⟨w, hw, hwid⟩ := hfound
  have hsome : ∃ itemToAdd, wardrobeItems.find? (fun i => strId i.id == id)
      = some itemToAdd := by
    have : (wardrobeItems.find? (fun i => strId i.id == id)).isSome = true := by
      rw [List.find?_isSome]
      exact ⟨w, hw, by simp [hwid]⟩
    exact Option.isSome_iff_exists.mp this
  obtain ⟨itemToAdd, hfind⟩ := hsome
  have hid : strId itemToAdd.id = id := by
    have := List.find?_some hfind
    simpa using this
  rcases hidx : selectedItems.findIdx? (fun i =>
      i.type == itemToAdd.type && !(lockedItems.contains (strId i.id))) with _ | conflictIndex
  · have : enforceLockedId strId wardrobeItems lockedItems selectedItems id
        = selectedItems ++ [itemToAdd] := by
      unfold enforceLockedId
      simp only [hfind, hidx]
    rw [this]
    exact ⟨itemToAdd, by simp, hid⟩
  · have : enforceLockedId strId wardrobeItems lockedItems selectedItems id
        = selectedItems.eraseIdx conflictIndex ++ [itemToAdd] := by
      unfold enforceLockedId
      simp only [hfind, hidx]
    rw [this]
    exact ⟨itemToAdd, by simp, hid⟩

/-- The concrete scenario wardrobe of the spec (§8): three items with
stringified ids "1", "2", "3" in categories Top / Bottom / Footwear. -/
def scenarioWardrobe : List (ClothingItem String) :=
  [⟨"1", "Top"⟩, ⟨"2", "Bottom"⟩, ⟨"3", "Footwear"⟩]

/-- C1.  After the lock-enforcement step of
`generateAIOutfitRecommendation`, every locked identifier that equals the
stringified id of some wardrobe item appears among the stringified ids of
the returned outfit, even when the model's `selectedItemIds` omitted it;
and in the spec's scenario (wardrobe ids "1" Top / "2" Bottom /
"3" Footwear, model selection ["2","3"], locked ["1"]) the final
selection is exactly the items with ids "2", "3", "1" in that order. -/
theorem enforceLocks_locked_present {ι : Type _} (strId : ι → String)
    (wardrobeItems : List (ClothingItem ι)) (selectedItemIds : List Json)
    (lockedItems : List String) (lid : String)
    (hlid : lid ∈ lockedItems)
    (hw : ∃ w ∈ wardrobeItems, strId w.id = lid) :
    (∃ x ∈ enforceLocks strId wardrobeItems lockedItems
        (selectByIds strId wardrobeItems selectedItemIds), strId x.id = lid) ∧
    enforceLocks (fun s => s) scenarioWardrobe ["1"]
        (selectByIds (fun s => s) scenarioWardrobe [Json.str "2", Json.str "3"])
      = [⟨"2", "Bottom"⟩, ⟨"3", "Footwear"⟩, ⟨"1", "Top"⟩] := by
  constructor
  · set sel₀ := selectByIds strId wardrobeItems selectedItemIds with hsel₀
    have hne : lockedItems.isEmpty = false := by
      cases lockedItems with
      | nil => exact absurd hlid (List.not_mem_nil lid)
      | cons a l => rfl
    unfold enforceLocks
    rw [hne]
    simp only [Bool.false_eq_true, if_false]
    set missing := lockedItems.filter
      (fun id => !(sel₀.any (fun item => strId item.id == id))) with hmissing
    by_cases hin : ∃ x ∈ sel₀, strId x.id = lid
    · -- the model already selected the locked item: it survives enforcement
      obtain ⟨x, hxsel, hxid⟩ := hin
      by_cases hme : missing.isEmpty
      · rw [if_pos hme]
        exact ⟨x, hxsel, hxid⟩
      · rw [if_neg hme]
        exact ⟨x, foldl_enforceLockedId_mem_of_locked strId wardrobeItems lockedItems
          missing sel₀ x hxsel (hxid ▸ hlid), hxid⟩
    · -- the model omitted it: it is in `missing` and gets appended
      have hmem : lid ∈ missing := by
        rw [hmissing]
        apply List.mem_filter.mpr
        refine ⟨hlid, ?_⟩
        simp only [Bool.not_eq_true']
        rw [List.any_eq_false]
        intro x hx
        simp only [beq_iff_eq]
        exact fun h => hin ⟨x, hx, h⟩
      have hme : missing.isEmpty = false := by
        cases hme : missing with
        | nil => rw [hme] at hmem; exact absurd hmem (List.not_mem_nil lid)
        | cons a l => rfl
      rw [hme]
      simp only [Bool.false_eq_true, if_false]
      obtain ⟨pre, post, hsplit⟩ := List.append_of_mem hmem
      rw [hsplit, List.foldl_append]
      have hadded := enforceLockedId_adds strId wardrobeItems lockedItems
        (pre.foldl (enforceLockedId strId wardrobeItems lockedItems) sel₀) lid hw
      obtain ⟨x, hxmem, hxid⟩ := hadded
      exact ⟨x, by
        simpa using foldl_enforceLockedId_mem_of_locked strId wardrobeItems lockedItems
          post _ x hxmem (hxid ▸ hlid), hxid⟩
  · rfl

/-- Witness for C1 at the spec's scenario: locked id "1" is present in
the final selection. -/
theorem enforceLocks_locked_present_witness :
    ("1" ∈ ["1"]) ∧ (∃ w ∈ scenarioWardrobe, w.id = "1") ∧
    (∃ x ∈ enforceLocks (fun s => s) scenarioWardrobe ["1"]
        (selectByIds (fun s => s) scenarioWardrobe [Json.str "2", Json.str "3"]),
      x.id = "1") := by
  refine ⟨by decide, ⟨⟨"1", "Top"⟩, by decide, rfl⟩, ?_⟩
  exact (enforceLocks_locked_present (ι := String) (fun s => s) scenarioWardrobe
    [Json.str "2", Json.str "3"] ["1"] "1" (by decide)
    ⟨⟨"1", "Top"⟩, by decide, rfl⟩).1

/-- C3.  For a missing locked identifier that matches a wardrobe item,
one enforcement iteration removes at most one selected item (the length
grows by one or stays equal), never removes an item whose id is locked,
removes exactly the first-encountered selected item of the same category
that is not locked when one exists, and otherwise appends without
removing anything. -/
theorem enforceLockedId_replaces_at_most_one {ι : Type _} (strId : ι → String)
    (wardrobeItems : List (ClothingItem ι)) (lockedItems : List String)
    (selectedItems : List (ClothingItem ι)) (id : String) (itemToAdd : ClothingItem ι)
    (hfind : wardrobeItems.find? (fun i => strId i.id == id) = some itemToAdd) :
    (selectedItems.length
        ≤ (enforceLockedId strId wardrobeItems lockedItems selectedItems id).length ∧
      (enforceLockedId strId wardrobeItems lockedItems selectedItems id).length
        ≤ selectedItems.length + 1) ∧
    (∀ x ∈ selectedItems, strId x.id ∈ lockedItems →
      x ∈ enforceLockedId strId wardrobeItems lockedItems selectedItems id) ∧
    (∀ k (hk : k < selectedItems.length),
      (selectedItems.get ⟨k, hk⟩).type = itemToAdd.type →
      strId (selectedItems.get ⟨k, hk⟩).id ∉ lockedItems →
      (∀ j (hj : j < k), ¬((selectedItems.get ⟨j, by omega⟩).type = itemToAdd.type ∧
          strId (selectedItems.get ⟨j, by omega⟩).id ∉ lockedItems)) →
      enforceLockedId strId wardrobeItems lockedItems selectedItems id
        = selectedItems.eraseIdx k ++ [itemToAdd]) ∧
    ((∀ x ∈ selectedItems, ¬(x.type = itemToAdd.type ∧ strId x.id ∉ lockedItems)) →
      enforceLockedId strId wardrobeItems lockedItems selectedItems id
        = selectedItems ++ [itemToAdd]) := by
  refine ⟨?_, ?_, ?_, ?_⟩
  · rcases hidx : selectedItems.findIdx? (fun i =>
        i.type == itemToAdd.type && !(lockedItems.contains (strId i.id))) with _ | k
    · have : enforceLockedId strId wardrobeItems lockedItems selectedItems id
          = selectedItems ++ [itemToAdd] := by
        unfold enforceLockedId
        simp only [hfind, hidx]
      rw [this]
      simp
    · have heq : enforceLockedId strId wardrobeItems lockedItems selectedItems id
          = selectedItems.eraseIdx k ++ [itemToAdd] := by
        unfold enforceLockedId
        simp only [hfind, hidx]
      obtain ⟨-, hk, -⟩ := findIdx?_spec selectedItems _ 0 k hidx
      rw [heq]
      rw [List.length_append, List.length_eraseIdx]
      simp only [Nat.sub_zero] at hk
      rw [if_pos hk]
      simp
      omega
  · intro x hx hxl
    exact enforceLockedId_mem_of_locked strId wardrobeItems lockedItems selectedItems
      id x hx hxl
  · intro k hk htype hunlocked hfirst
    simp only [List.get_eq_getElem] at htype hunlocked
    have hidx : selectedItems.findIdx? (fun i =>
        i.type == itemToAdd.type && !(lockedItems.contains (strId i.id))) = some k := by
      have := findIdx?_first selectedItems
        (fun i => i.type == itemToAdd.type && !(lockedItems.contains (strId i.id)))
        0 k hk (by simp [htype, hunlocked]) ?_
      · simpa using this
      · intro j hj
        have hne := hfirst j hj
        simp only [List.get_eq_getElem] at hne
        by_cases ht : selectedItems[j].type = itemToAdd.type
        · have hin : strId selectedItems[j].id ∈ lockedItems := by
            by_contra hno
            exact hne ⟨ht, hno⟩
          simp [hin]
        · simp [ht]
    unfold enforceLockedId
    simp only [hfind, hidx]
  · intro hnoconflict
    have hidx : selectedItems.findIdx? (fun i =>
        i.type == itemToAdd.type && !(lockedItems.contains (strId i.id))) = none := by
      apply findIdx?_eq_none_of_all
      intro x hx
      have hne := hnoconflict x hx
      by_cases ht : x.type = itemToAdd.type
      · have hin : strId x.id ∈ lockedItems := by
          by_contra hno
          exact hne ⟨ht, hno⟩
        simp [hin]
      · simp [ht]
    unfold enforceLockedId
    simp only [hfind, hidx]

/-- Witness for C3: wardrobe with two Tops and a Bottom; the selection
holds the non-locked Top "4" and the Bottom "2"; enforcing locked Top "1"
replaces "4" (the first same-category non-locked item) and appends "1". -/
theorem enforceLockedId_replaces_at_most_one_witness :
    ([⟨"1", "Top"⟩, ⟨"4", "Top"⟩, ⟨"2", "Bottom"⟩] :
        List (ClothingItem String)).find? (fun i => i.id == "1") = some ⟨"1", "Top"⟩ ∧
    enforceLockedId (fun s => s) [⟨"1", "Top"⟩, ⟨"4", "Top"⟩, ⟨"2", "Bottom"⟩] ["1"]
        [⟨"4", "Top"⟩, ⟨"2", "Bottom"⟩] "1"
      = [⟨"2", "Bottom"⟩, ⟨"1", "Top"⟩] := by
  refine ⟨rfl, ?_⟩
  have h := (enforceLockedId_replaces_at_most_one (fun s => s)
      [⟨"1", "Top"⟩, ⟨"4", "Top"⟩, ⟨"2", "Bottom"⟩] ["1"]
      [⟨"4", "Top"⟩, ⟨"2", "Bottom"⟩] "1" ⟨"1", "Top"⟩ rfl).2.2.1 0 (by decide)
      rfl (by decide) (fun j hj => absurd hj (Nat.not_lt_zero j))
  exact h

/-- C10.  A locked identifier matching no wardrobe item is silently
skipped by the enforcement iteration: the (total, hence error-free)
function returns the selection unchanged — nothing is removed and
nothing is appended on account of that identifier. -/
theorem enforceLockedId_unmatched_skipped {ι : Type _} (strId : ι → String)
    (wardrobeItems : List (ClothingItem ι)) (lockedItems : List String)
    (selectedItems : List (ClothingItem ι)) (id : String)
    (hnone : ∀ w ∈ wardrobeItems, strId w.id ≠ id) :
    enforceLockedId strId wardrobeItems lockedItems selectedItems id = selectedItems := by
  have hfind : wardrobeItems.find? (fun i => strId i.id == id) = none := by
    rw [List.find?_eq_none]
    intro x hx
    simp [hnone x hx]
  unfold enforceLockedId
  rw [hfind]

/-- Witness for C10: locked id "99" matches nothing in the scenario
wardrobe and leaves the selection untouched. -/
theorem enforceLockedId_unmatched_skipped_witness :
    (∀ w ∈ scenarioWardrobe, w.id ≠ "99") ∧
    enforceLockedId (fun s => s) scenarioWardrobe ["99"]
        [⟨"2", "Bottom"⟩, ⟨"3", "Footwear"⟩] "99"
      = [⟨"2", "Bottom"⟩, ⟨"3", "Footwear"⟩] :=
  ⟨by decide, enforceLockedId_unmatched_skipped (fun s => s) scenarioWardrobe ["99"]
    [⟨"2", "Bottom"⟩, ⟨"3", "Footwear"⟩] "99" (by decide)⟩

/-! ## A model of ECMAScript `JSON.parse`

`JSON.parse` is a platform primitive (not repository code); it is
modelled by a recursive-descent parser for the JSON grammar
(RFC 8259): optional whitespace, `null` / `true` / `false`, numbers
(integer, optional fraction and exponent, no leading zeros), strings
with the standard escapes, arrays and objects.  Mutual recursion is
bounded by a fuel argument that dominates the recursion depth (at most
two recursive steps per consumed input character).  Two harmless
deviations from a real engine: a `\u` escape denoting a lone surrogate
is rejected (Lean `Char` cannot hold one), and duplicate object keys are
kept in order (property access `jsGet` returns the last one, as JS
does). -/

def jsonWsChar (c : Char) : Bool :=
  c = ' ' || c = '\t' || c = '\n' || c = '\r'

def skipWs : List Char → List Char
  | [] => []
  | c :: cs => if jsonWsChar c then skipWs cs else c :: cs

def digitsVal (ds : List Char) : Nat :=
  ds.foldl (fun a c => a * 10 + (c.toNat - 48)) 0

def hexVal (c : Char) : Option Nat :=
  if c.isDigit then some (c.toNat - 48)
  else if 'a' ≤ c ∧ c ≤ 'f' then some (c.toNat - 87)
  else if 'A' ≤ c ∧ c ≤ 'F' then some (c.toNat - 55)
  else none

/-- Parse the characters of a JSON string after the opening quote;
returns the decoded characters and the input after the closing quote. -/
def parseStringChars : List Char → Option (List Char × List Char)
  | [] => none
  | '"' :: t => some ([], t)
  | '\\' :: 'u' :: a :: b :: c :: d :: t =>
    match hexVal a, hexVal b, hexVal c, hexVal d with
    | some ha, some hb, some hc, some hd =>
      let code := ((ha * 16 + hb) * 16 + hc) * 16 + hd
      if code.isValidChar then
        (fun p => (Char.ofNat code :: p.1, p.2)) <$> parseStringChars t
      else none
    | _, _, _, _ => none
  | '\\' :: e :: t =>
    let esc : Option Char :=
      if e = '"' then some '"'
      else if e = '\\' then some '\\'
      else if e = '/' then some '/'
      else if e = 'b' then some (Char.ofNat 8)
      else if e = 'f' then some (Char.ofNat 12)
      else if e = 'n' then some '\n'
      else if e = 'r' then some '\r'
      else if e = 't' then some '\t'
      else none
    match esc with
    | some ec => (fun p => (ec :: p.1, p.2)) <$> parseStringChars t
    | none => none
  | c :: t =>
    if c.toNat < 32 then none
    else (fun p => (c :: p.1, p.2)) <$> parseStringChars t

/-- Parse the exponent suffix (if any) and finish a number. -/
def parseExpPart (sign mant : ℚ) (cs : List Char) : Option (ℚ × List Char) :=
  match cs with
  | c :: t =>
    if c = 'e' ∨ c = 'E' then
      let (eneg, t1) : Bool × List Char :=
        match t with
        | '+' :: t2 => (false, t2)
        | '-' :: t2 => (true, t2)
        | _ => (false, t)
      let (es, t2) := t1.span Char.isDigit
      if es.isEmpty then none
      else
        let e := digitsVal es
        some (sign * mant * (if eneg then (1 / 10 ^ e : ℚ) else (10 ^ e : ℚ)), t2)
    else some (sign * mant, cs)
  | [] => some (sign * mant, [])

/-- Parse a JSON number (sign, integer part without leading zeros,
optional fraction, optional exponent). -/
def parseNumber (cs : List Char) : Option (ℚ × List Char) :=
  let (sign, cs1) : ℚ × List Char :=
    match cs with
    | '-' :: t => (-1, t)
    | _ => (1, cs)
  let (ds, cs2) := cs1.span Char.isDigit
  if ds.isEmpty then none
  else if 1 < ds.length ∧ ds.headD ' ' = '0' then none
  else
    let ipart : ℚ := (digitsVal ds : ℚ)
    match cs2 with
    | '.' :: t =>
      let (fs, cs3) := t.span Char.isDigit
      if fs.isEmpty then none
      else parseExpPart sign (ipart + (digitsVal fs : ℚ) / (10 ^ fs.length : ℚ)) cs3
    | _ => parseExpPart sign ipart cs2

mutual

/-- Parse one JSON value (after skipping leading whitespace). -/
def parseValue : Nat → List Char → Option (Json × List Char)
  | 0, _ => none
  | fuel + 1, cs =>
    match skipWs cs with
    | [] => none
    | c :: t =>
      if c = 'n' then
        match t with
        | 'u' :: 'l' :: 'l' :: r => some (.null, r)
        | _ => none
      else if c = 't' then
        match t with
        | 'r' :: 'u' :: 'e' :: r => some (.bool true, r)
        | _ => none
      else if c = 'f' then
        match t with
        | 'a' :: 'l' :: 's' :: 'e' :: r => some (.bool false, r)
        | _ => none
      else if c = '"' then
        (fun p => (Json.str (String.mk p.1), p.2)) <$> parseStringChars t
      else if c = '[' then
        match skipWs t with
        | ']' :: r => some (.arr [], r)
        | r => (fun p => (Json.arr p.1, p.2)) <$> parseArrayItems fuel r
      else if c = '\x7b' then
        match skipWs t with
        | '\x7d' :: r => some (.obj [], r)
        | r => (fun p => (Json.obj p.1, p.2)) <$> parseObjectFields fuel r
      else if c = '-' ∨ c.isDigit then
        (fun p => (Json.num p.1, p.2)) <$> parseNumber (c :: t)
      else none

/-- Parse the non-empty element list of a JSON array, up to and
including the closing bracket. -/
def parseArrayItems : Nat → List Char → Option (List Json × List Char)
  | 0, _ => none
  | fuel + 1, cs =>
    match parseValue fuel cs with
    | none => none
    | some (v, r) =>
      match skipWs r with
      | ',' :: t => (fun p => (v :: p.1, p.2)) <$> parseArrayItems fuel t
      | ']' :: t => some ([v], t)
      | _ => none

/-- Parse the non-empty member list of a JSON object, up to and
including the closing brace. -/
def parseObjectFields : Nat → List Char → Option (List (String × Json) × List Char)
  | 0, _ => none
  | fuel + 1, cs =>
    match cs with
    | '"' :: t =>
      match parseStringChars t with
      | none => none
      | some (key, r1) =>
        match skipWs r1 with
        | ':' :: r2 =>
          match parseValue fuel r2 with
          | none => none
          | some (v, r3) =>
            match skipWs r3 with
            | ',' :: r4 =>
              (fun p => ((String.mk key, v) :: p.1, p.2)) <$>
                parseObjectFields fuel (skipWs r4)
            | '\x7d' :: r4 => some ([(String.mk key, v)], r4)
            | _ => none
        | _ => none
    | _ => none

end

/-- `JSON.parse`: the whole text must be one JSON value surrounded by
optional whitespace; `none` models a thrown `SyntaxError`. -/
def jsonParse (s : String) : Option Json :=
  match parseValue (2 * s.data.length + 2) s.data with
  | some (v, rest) => if (skipWs rest).isEmpty then some v else none
  | none => none

/-- JS property access `obj[key]` for a parsed JSON value: on an object,
the last-written value for the key (duplicate keys overwrite); `none`
is JS `undefined` (also the result on non-objects, whose string keys
here never exist). -/
def jsGet (j : Json) (key : String) : Option Json :=
  match j with
  | .obj fields => fields.foldl (fun acc f => if f.1 == key then some f.2 else acc) none
  | _ => none

/-! ## The recommendation pipeline
(aiOutfitAnalyzer.ts, lines 226–432)

```js
const responseText = result.response.text();
const aiResponse = JSON.parse(responseText);
if (!aiResponse.selectedItemIds || !Array.isArray(aiResponse.selectedItemIds)) \x7b
  throw new Error('Invalid AI response format');
\x7d
const selectedItems = wardrobeItems.filter(item =>
  aiResponse.selectedItemIds.includes(String(item.id)));
// ... lock enforcement (embedded above as enforceLocks) ...
const normalizedScore = normalizeStyleScore(aiResponse.reasoning?.styleScore);
return \x7b outfit: selectedItems, validationScore: normalizedScore,
         iterations: 1, ... \x7d;
```

The external model is invoked exactly once — there is no retry loop in
this path — and its response text is passed to `JSON.parse` directly (no
code-fence stripping happens here).  The embedding takes the response
text as a parameter and models a thrown error as `Except.error`; a
`JSON.parse` `SyntaxError` is surfaced through the same `catch`/rethrow,
with a fixed message standing in for the engine-specific one.
`!aiResponse.selectedItemIds || !Array.isArray(...)` rejects exactly the
values that are not arrays: every falsy value (`undefined`, `null`, `0`,
`""`, `false`) is a non-array, and an array (even empty) is truthy.
A non-number `styleScore` is modelled as absent (`none`): the claims
about `normalizeStyleScore` concern numbers and `undefined`/`null`
only. -/

structure RecommendationSuccess (ι : Type _) where
  outfit : List (ClothingItem ι)
  validationScore : ℤ
  iterations : Nat

def generateAIOutfitRecommendation {ι : Type _} (strId : ι → String)
    (wardrobeItems : List (ClothingItem ι)) (lockedItems : List String)
    (responseText : String) : Except String (RecommendationSuccess ι) :=
  match jsonParse responseText with
  | none => .error "SyntaxError: Unexpected token in JSON"
  | some aiResponse =>
    match jsGet aiResponse "selectedItemIds" with
    | some (.arr selectedItemIds) =>
      let selectedItems := selectByIds strId wardrobeItems selectedItemIds
      let outfit := enforceLocks strId wardrobeItems lockedItems selectedItems
      let styleScore : Option ℚ :=
        match jsGet aiResponse "reasoning" with
        | some reasoning =>
          match jsGet reasoning "styleScore" with
          | some (.num q) => some q
          | _ => none
        | none => none
      .ok ⟨outfit, normalizeStyleScore styleScore, 1⟩
    | _ => .error "Invalid AI response format"

/-- C7.  `generateAIOutfitRecommendation` fails exactly when the response
text does not parse as JSON or the parsed value lacks a
`selectedItemIds` array; the failure is the immediately returned error
of the single model invocation (this path has no retry loop). -/
theorem generate_malformed_response {ι : Type _} (strId : ι → String)
    (wardrobeItems : List (ClothingItem ι)) (lockedItems : List String)
    (responseText : String) :
    ((∃ r, generateAIOutfitRecommendation strId wardrobeItems lockedItems responseText
        = .ok r) ↔
      (∃ j ids, jsonParse responseText = some j ∧
        jsGet j "selectedItemIds" = some (.arr ids))) ∧
    (jsonParse responseText = none →
      generateAIOutfitRecommendation strId wardrobeItems lockedItems responseText
        = .error "SyntaxError: Unexpected token in JSON") ∧
    (∀ j, jsonParse responseText = some j →
      (∀ ids, ¬ jsGet j "selectedItemIds" = some (.arr ids)) →
      generateAIOutfitRecommendation strId wardrobeItems lockedItems responseText
        = .error "Invalid AI response format") := by
  rcases hp : jsonParse responseText with _ | j
  · have hgen : generateAIOutfitRecommendation strId wardrobeItems lockedItems responseText
        = .error "SyntaxError: Unexpected token in JSON" := by
      unfold generateAIOutfitRecommendation
      rw [hp]
    refine ⟨⟨?_, ?_⟩, fun _ => hgen, fun j hj _ => Option.noConfusion hj⟩
    · rintro ⟨r, hr⟩
      rw [hgen] at hr
      cases hr
    · rintro ⟨j, ids, hj, -⟩
      exact Option.noConfusion hj
  · rcases hv : jsGet j "selectedItemIds" with _ | v
    · have hgen : generateAIOutfitRecommendation strId wardrobeItems lockedItems responseText
          = .error "Invalid AI response format" := by
        unfold generateAIOutfitRecommendation
        rw [hp]
        dsimp only
        rw [hv]
      refine ⟨⟨?_, ?_⟩, fun hn => Option.noConfusion hn, fun _ _ _ => hgen⟩
      · rintro ⟨r, hr⟩
        rw [hgen] at hr
        cases hr
      · rintro ⟨j', ids, hj', harr⟩
        obtain rfl := Option.some.inj hj'
        rw [hv] at harr
        exact Option.noConfusion harr
    · cases v
      case arr ids =>
        refine ⟨⟨fun _ => ⟨j, ids, rfl, hv⟩, fun _ =>
          ⟨⟨enforceLocks strId wardrobeItems lockedItems
              (selectByIds strId wardrobeItems ids),
            normalizeStyleScore
              (match jsGet j "reasoning" with
               | some reasoning =>
                 match jsGet reasoning "styleScore" with
                 | some (.num q) => some q
                 | _ => none
               | none => none), 1⟩, ?_⟩⟩,
          fun hn => Option.noConfusion hn, fun j' hj' hno => ?_⟩
        · unfold generateAIOutfitRecommendation
          rw [hp]
          dsimp only
          rw [hv]
        · obtain rfl := Option.some.inj hj'
          exact absurd hv (hno ids)
      all_goals (
        have hgen : generateAIOutfitRecommendation strId wardrobeItems lockedItems
            responseText = .error "Invalid AI response format" := by
          unfold generateAIOutfitRecommendation
          rw [hp]
          dsimp only
          rw [hv]
        refine ⟨⟨?_, ?_⟩, fun hn => Option.noConfusion hn, fun _ _ _ => hgen⟩
        · rintro ⟨r, hr⟩
          rw [hgen] at hr
          cases hr
        · rintro ⟨j', ids', hj', harr⟩
          obtain rfl := Option.some.inj hj'
          rw [hv] at harr
          exact Json.noConfusion (Option.some.inj harr))

/-- Witness for C7: a response text that is not JSON is rejected with the
parse failure surfaced. -/
theorem generate_malformed_response_witness :
    jsonParse "not json" = none ∧
    generateAIOutfitRecommendation (fun s : String => s) [] [] "not json"
      = .error "SyntaxError: Unexpected token in JSON" :=
  ⟨rfl, (generate_malformed_response (fun s : String => s) [] [] "not json").2.1 rfl⟩

/-! ### Code-fence handling in the recommendation path (C8)

The recommendation path passes `result.response.text()` to `JSON.parse`
directly (line 364) — the fence-stripping
`text.replace(/.../g, '')` exists only in `analyzeClothingImage`
(line 187).  A fenced response therefore starts with a backtick, which
no JSON value can, so parsing fails no matter what the fences wrap. -/

theorem parseValue_backtick (n : Nat) (cs : List Char) :
    parseValue n ('`' :: cs) = none := by
  cases n <;> rfl

theorem jsonParse_fenced_json (inner : String) :
    jsonParse ("```json\n" ++ inner ++ "\n```") = none := by
  have h : ("```json\n" ++ inner ++ "\n```").data
      = '`' :: ('`' :: '`' :: 'j' :: 's' :: 'o' :: 'n' :: '\n' ::
          (inner.data ++ ['\n', '`', '`', '`'])) := rfl
  unfold jsonParse
  rw [h, parseValue_backtick]

theorem jsonParse_fenced_plain (inner : String) :
    jsonParse ("```\n" ++ inner ++ "\n```") = none := by
  have h : ("```\n" ++ inner ++ "\n```").data
      = '`' :: ('`' :: '`' :: '\n' :: (inner.data ++ ['\n', '`', '`', '`'])) := rfl
  unfold jsonParse
  rw [h, parseValue_backtick]

/-- Counterexample to C8: the recommendation path does not strip markdown
code fences.  The unfenced text parses to an object with a
`selectedItemIds` array, but the same text wrapped in ```` ```json ... ``` ````
fails `JSON.parse` and `generateAIOutfitRecommendation` surfaces the
parse error instead of succeeding. -/
theorem generate_fenced_response_fails :
    jsonParse "\x7b\"selectedItemIds\": []\x7d"
      = some (.obj [("selectedItemIds", .arr [])]) ∧
    jsonParse "```json\n\x7b\"selectedItemIds\": []\x7d\n```" = none ∧
    generateAIOutfitRecommendation (fun s : String => s) [] []
        "```json\n\x7b\"selectedItemIds\": []\x7d\n```"
      = .error "SyntaxError: Unexpected token in JSON" :=
  ⟨rfl, rfl, rfl⟩

/-- C8 (amended).  The recommendation path parses the model's response
text as JSON directly, with no markdown code-fence stripping: every
response text of the form ```` ```json ... ``` ```` or ```` ``` ... ``` ````
fails to parse — whatever JSON object the fences wrap — and
`generateAIOutfitRecommendation` surfaces the parse failure.  (Fence
stripping exists only in the separate image-analysis path.) -/
theorem generate_no_fence_stripping {ι : Type _} (strId : ι → String)
    (wardrobeItems : List (ClothingItem ι)) (lockedItems : List String)
    (inner : String) :
    jsonParse ("```json\n" ++ inner ++ "\n```") = none ∧
    jsonParse ("```\n" ++ inner ++ "\n```") = none ∧
    generateAIOutfitRecommendation strId wardrobeItems lockedItems
        ("```json\n" ++ inner ++ "\n```")
      = .error "SyntaxError: Unexpected token in JSON" ∧
    generateAIOutfitRecommendation strId wardrobeItems lockedItems
        ("```\n" ++ inner ++ "\n```")
      = .error "SyntaxError: Unexpected token in JSON" := by
  refine ⟨jsonParse_fenced_json inner, jsonParse_fenced_plain inner, ?_, ?_⟩
  · unfold generateAIOutfitRecommendation
    rw [jsonParse_fenced_json inner]
  · unfold generateAIOutfitRecommendation
    rw [jsonParse_fenced_plain inner]

/-! ## Label normalization (aiOutfitAnalyzer.ts, lines 27–41)

```js
const toTitleCase = (value?: string) => \x7b
  if (!value) return undefined;
  return value
    .split(/[\s|_-]+/)
    .filter(Boolean)
    .map((part) => part.charAt(0).toUpperCase() + part.slice(1).toLowerCase())
    .join(' ');
\x7d;
const normalizeCategoryLabel = (category?: string) => \x7b
  if (!category) return 'Accessory';
  const primary = category.split('|')[0];
  return toTitleCase(primary) || 'Accessory';
\x7d;
const normalizeMaterialLabel = (material?: string) => toTitleCase(material) || 'Other';
```

`undefined` is `none`; `!value` is true for `none` and for the empty
string.  Splitting on the regex `[\s|_-]+` followed by
`.filter(Boolean)` keeps exactly the maximal non-empty runs of
non-separator characters, which equals splitting at every separator
character and dropping empty pieces (`\s` is modelled by its ASCII
cases; case conversion is ASCII `Char.toUpper`/`Char.toLower`, matching
JS on the ASCII labels involved).  `x || d` on a string result is `d`
when the result is `undefined` or `""`. -/

def titleSeparator (c : Char) : Bool :=
  c = ' ' || c = '\t' || c = '\n' || c = '\r' || c = '\x0b' || c = '\x0c' ||
    c = '|' || c = '_' || c = '-'

/-- Split a character list at every character satisfying `p`, keeping
empty pieces (the semantics of JS `String.prototype.split`). -/
def splitList (p : Char → Bool) : List Char → List (List Char)
  | [] => [[]]
  | c :: rest =>
    let r := splitList p rest
    if p c then [] :: r
    else
      match r with
      | t :: ts => (c :: t) :: ts
      | [] => [[c]]

/-- JS `part.charAt(0).toUpperCase() + part.slice(1).toLowerCase()`. -/
def jsCapitalize : List Char → List Char
  | [] => []
  | c :: rest => c.toUpper :: rest.map Char.toLower

/-- The split / filter / map / join pipeline of `toTitleCase` on a
non-empty string. -/
def titleCaseTokens (value : String) : String :=
  String.mk (List.intercalate [' ']
    (((splitList titleSeparator value.data).filter (fun t => !t.isEmpty)).map
      jsCapitalize))

def toTitleCase : Option String → Option String
  | none => none
  | some value =>
    if value.data.isEmpty then none else some (titleCaseTokens value)

/-- JS `v || d` where `v` is a string-or-undefined and `d` a string. -/
def jsOrDefault (v : Option String) (d : String) : String :=
  match v with
  | none => d
  | some s => if s.data.isEmpty then d else s

/-- JS `category.split('|')[0]`. -/
def primarySegment (category : String) : String :=
  String.mk ((splitList (fun c => c = '|') category.data).headD [])

def normalizeCategoryLabel (category : Option String) : String :=
  match category with
  | none => "Accessory"
  | some c =>
    if c.data.isEmpty then "Accessory"
    else jsOrDefault (toTitleCase (some (primarySegment c))) "Accessory"

def normalizeMaterialLabel (material : Option String) : String :=
  jsOrDefault (toTitleCase material) "Other"

/-- The fixed category vocabulary named in the image-analysis prompt
(aiOutfitAnalyzer.ts, line 121). -/
def categoryVocabulary : List String :=
  ["Top", "Bottom", "Shoes", "Outerwear", "Accessory", "Dress"]

/-- The fixed material vocabulary named in the image-analysis prompt
(aiOutfitAnalyzer.ts, line 122). -/
def materialVocabulary : List String :=
  ["Cotton", "Polyester", "Wool", "Silk", "Leather", "Denim", "Linen",
   "Synthetic", "Gore-Tex", "Other"]

/-- Counterexample to C9: the normalizers do no vocabulary mapping.  The
label "banana" is outside the fixed category vocabulary yet is returned
title-cased as "Banana", not "Accessory"; the label "chainmail" is
outside the material vocabulary yet becomes "Chainmail", not "Other". -/
theorem normalizeLabels_no_vocabulary_mapping :
    ("Banana" ∉ categoryVocabulary ∧
      normalizeCategoryLabel (some "banana") = "Banana" ∧
      normalizeCategoryLabel (some "banana") ≠ "Accessory") ∧
    ("Chainmail" ∉ materialVocabulary ∧
      normalizeMaterialLabel (some "chainmail") = "Chainmail" ∧
      normalizeMaterialLabel (some "chainmail") ≠ "Other") := by
  refine ⟨⟨?_, rfl, ?_⟩, ⟨?_, rfl, ?_⟩⟩ <;> decide

/-- C9 (amended).  The image-analysis normalizers title-case labels but
map nothing against a vocabulary: a missing or empty label defaults to
"Accessory" / "Other"; the single-word vocabulary labels are preserved
(so is every already-title-cased single word), but "Gore-Tex" is mangled
to "Gore Tex" by the separator split; and any other label whose
title-casing is non-empty passes through title-cased (category: its
first `|`-segment). -/
theorem normalizeLabels_titlecase_passthrough (label : String)
    (hcat : ¬ (titleCaseTokens (primarySegment label)).data.isEmpty = true)
    (hmat : ¬ (titleCaseTokens label).data.isEmpty = true)
    (hlab : ¬ label.data.isEmpty = true) :
    normalizeCategoryLabel none = "Accessory" ∧
    normalizeMaterialLabel none = "Other" ∧
    normalizeCategoryLabel (some "") = "Accessory" ∧
    normalizeMaterialLabel (some "") = "Other" ∧
    (∀ c ∈ categoryVocabulary, normalizeCategoryLabel (some c) = c) ∧
    (∀ m ∈ materialVocabulary, m ≠ "Gore-Tex" → normalizeMaterialLabel (some m) = m) ∧
    normalizeMaterialLabel (some "Gore-Tex") = "Gore Tex" ∧
    normalizeCategoryLabel (some label) = titleCaseTokens (primarySegment label) ∧
    normalizeMaterialLabel (some label) = titleCaseTokens label := by
  refine ⟨rfl, rfl, rfl, rfl, by decide, by decide, rfl, ?_, ?_⟩
  · have hprim : ¬ (primarySegment label).data.isEmpty = true := by
      intro he
      apply hcat
      have : primarySegment label = "" := by
        cases hd : (primarySegment label).data with
        | nil =>
          cases hs : primarySegment label with
          | mk d => rw [hs] at hd; simp at hd; rw [hd]
        | cons a l => rw [hd] at he; simp at he
      rw [this]
      rfl
    unfold normalizeCategoryLabel
    dsimp only
    rw [if_neg hlab]
    unfold toTitleCase
    dsimp only
    rw [if_neg hprim]
    unfold jsOrDefault
    dsimp only
    rw [if_neg hcat]
  · unfold normalizeMaterialLabel
    unfold toTitleCase
    dsimp only
    rw [if_neg hlab]
    unfold jsOrDefault
    dsimp only
    rw [if_neg hmat]

/-- Witness for the amended C9 at label "banana": the unrecognized label
passes through title-cased. -/
theorem normalizeLabels_titlecase_passthrough_witness :
    (¬ (titleCaseTokens (primarySegment "banana")).data.isEmpty = true) ∧
    (¬ (titleCaseTokens "banana").data.isEmpty = true) ∧
    (¬ ("banana" : String).data.isEmpty = true) ∧
    normalizeCategoryLabel (some "banana") = titleCaseTokens (primarySegment "banana") ∧
    titleCaseTokens (primarySegment "banana") = "Banana" := by
  refine ⟨by decide, by decide, by decide, ?_, by decide⟩
  exact (normalizeLabels_titlecase_passthrough "banana" (by decide) (by decide)
    (by decide)).2.2.2.2.2.2.2.1

end SetMyFit
